import Mathlib

/-!
Verification of the RISK-SCANNING keyword-scanning pipeline
(`src/extraction.py`, `src/main.py`).

The Python source is shallowly embedded: pure string manipulation becomes
Lean functions on `String` / `List Char`; Python dicts become association
lists with overwrite-on-insert semantics; the stateful main loop becomes a
fold over an explicit `ScanState`; library calls that perform I/O or
parsing (fitz, pdfplumber, python-pptx, python-docx, pandas) are modelled
as parameters carrying either the parsed value or the exception the
library raised, and a capability that does not catch the exception
propagates it as `Except.error`.
-/

/-- Python substring test `needle in hay` on strings: `needle.data` is a
contiguous infix of `hay.data`.  The empty needle is in every string, as in
Python. -/
def isSubstrOf (needle : List Char) : List Char → Bool
  | [] => needle.isEmpty
  | c :: t => needle.isPrefixOf (c :: t) || isSubstrOf needle t

/-- The characters of `l` after the last occurrence of `sep` (the whole of
`l` when `sep` does not occur).  Used to model `os.path.basename` and
Python `s.split(sep)[-1]`. -/
def afterLastSep (sep : Char) (l : List Char) : List Char :=
  (l.reverse.takeWhile (fun c => c != sep)).reverse

/-- `os.path.basename` for `/`-separated paths (src/main.py line 189). -/
def pyBasename (p : String) : String :=
  ⟨afterLastSep '/' p.data⟩

/-- Python `file.split('\\')[-1]` (src/main.py lines 180 and 185): the part
of the string after the last backslash. -/
def pySplitBackslashLast (p : String) : String :=
  ⟨afterLastSep '\\' p.data⟩

/-- `os.path.join` for `/`-separated paths: an absolute second component
replaces the first; otherwise a single separator is inserted. -/
def pyJoin (d f : String) : String :=
  if f.data.head? = some '/' then f
  else if d.data = [] then f
  else if d.data.getLast? = some '/' then ⟨d.data ++ f.data⟩
  else ⟨d.data ++ '/' :: f.data⟩

/-- Python `s.endswith(suffix)`. -/
def pyEndsWith (s suffix : String) : Bool :=
  suffix.data.isSuffixOf s.data

/-- A value returned by one of the extraction capabilities: most return a
single string, while the tabular capabilities (`extract_text_from_csv`,
`extract_text_from_excel`) return a Python list of cell strings. -/
inductive Payload where
  | str (s : String)
  | list (l : List String)
deriving DecidableEq

/-- Python truthiness of an extraction result (`if extracted_text:` in
src/main.py line 169): a string is truthy iff non-empty, a list iff
non-empty. -/
def pyTruthy : Payload → Bool
  | .str s => !s.data.isEmpty
  | .list l => !l.isEmpty

/-- Python `word in text` as used by `search_words_in_text`
(src/extraction.py line 120): substring containment when `text` is a
string, exact element membership when `text` is a list (the payload of the
tabular capabilities). -/
def pyIn (word : String) : Payload → Bool
  | .str s => isSubstrOf word.data s.data
  | .list l => l.contains word

/-- Assignment `d[k] = v` into a Python dict modelled as an association
list in insertion order: an existing binding of `k` is overwritten in
place, a new key is appended. -/
def dictAssign {β : Type} (d : List (String × β)) (k : String) (v : β) :
    List (String × β) :=
  if d.any (fun p => p.1 == k) then
    d.map (fun p => if p.1 = k then (k, v) else p)
  else d ++ [(k, v)]

/-- Python `d[k]` lookup on the association-list dict model. -/
def dictLookup {β : Type} : List (String × β) → String → Option β
  | [], _ => none
  | p :: r, k => if p.1 = k then some p.2 else dictLookup r k

/-- `search_words_in_text` (src/extraction.py lines 117-122): builds the
dict `found_words` with `found_words[word] = word in text` for each
keyword in order. -/
def search_words_in_text (text : Payload) (keywords : List String) :
    List (String × Bool) :=
  keywords.foldl (fun d word => dictAssign d word (pyIn word text)) []

/-- `extract_text_from_csv` / `extract_text_from_dataframe` on the
flattened cell values (src/extraction.py lines 156-169): keep exactly the
string-typed cells, in order.  A non-string cell (numeric, boolean, NaN)
is dropped from the text view. -/
inductive PyCell where
  | str (s : String)
  | nonStr
deriving DecidableEq

/-- `extract_text_from_csv` (src/extraction.py lines 163-169), given the
flattened cell values of the parsed table. -/
def extract_text_from_csv (cells : List PyCell) : List String :=
  cells.foldl (fun t c => match c with | .str s => t ++ [s] | .nonStr => t) []

/-- Reading of the spec sentence "the keyword is found as a literal
substring of the extracted text" applied to both payload shapes: for a
list payload (the tabular capabilities) the keyword occurs in the
extracted text when it is a substring of one of the extracted cell
strings.  This is the spec-side definition that the code-side matcher is
compared against. -/
def specSubstringMatch (word : String) : Payload → Bool
  | .str s => isSubstrOf word.data s.data
  | .list l => l.any (fun s => isSubstrOf word.data s.data)

/-- Lowercasing as in Python `str.lower` restricted to what `Char.toLower`
covers (ASCII letters), applied characterwise (src/main.py line 90). -/
def pyLower (s : String) : String :=
  ⟨s.data.map Char.toLower⟩

/-- The keys of a dict in insertion order. -/
def dictKeys {β : Type} (d : List (String × β)) : List String :=
  d.map Prod.fst

/-- Python `s.strip()`: drop leading and trailing whitespace. -/
def pyStrip (s : String) : String :=
  ⟨((s.data.dropWhile Char.isWhitespace).reverse.dropWhile Char.isWhitespace).reverse⟩

/-- `extract_text_from_pdf` (src/extraction.py lines 31-54).  The PyMuPDF
attempt is modelled by the text it accumulated (`fitzText`) and whether it
raised (`fitzRaised`); likewise pdfplumber.  The code keeps whatever the
first attempt accumulated in `text` and appends the second attempt to it;
each `return text` sits inside the `try`, so an attempt that raised never
returns early; if neither attempt returns, the sentinel is returned. -/
def extract_text_from_pdf (fitzText : String) (fitzRaised : Bool)
    (plumberText : String) (plumberRaised : Bool) : String :=
  if fitzRaised = false ∧ pyStrip fitzText ≠ "" then fitzText
  else if plumberRaised = false ∧ pyStrip (fitzText ++ plumberText) ≠ "" then
    fitzText ++ plumberText
  else "No text extracted."

/-- A slide shape as seen by `extract_text_from_ppt`: optional `.text`
(`hasattr(shape, "text")`) and an optional table of rows of cell texts
(`shape.has_table`). -/
structure PShape where
  text : Option String
  table : Option (List (List String))
deriving DecidableEq

/-- A slide: its list of shapes. -/
structure PSlide where
  shapes : List PShape
deriving DecidableEq

/-- `extract_table_text` (src/extraction.py lines 75-85): cells stripped
and space-joined, rows newline-terminated, accumulated across the slide's
table shapes. -/
def extract_table_text (slide : PSlide) : String :=
  slide.shapes.foldl (fun tt sh =>
    match sh.table with
    | none => tt
    | some rows =>
      rows.foldl (fun tt2 row =>
        (row.foldl (fun tt3 cell => tt3 ++ pyStrip cell ++ " ") tt2) ++ "\n") tt) ""

/-- `extract_text_from_ppt` (src/extraction.py lines 57-72).
`Presentation(ppt_path)` is modelled by the `Except` argument: the
function body contains no `try`/`except`, so a parser failure propagates
out unchanged instead of being converted to a failure string. -/
def extract_text_from_ppt (presentation : Except String (List PSlide)) :
    Except String String :=
  match presentation with
  | .error e => .error e
  | .ok slides =>
    .ok ((slides.enum.foldl (fun acc is =>
      let acc1 := acc ++ "Slide " ++ toString (is.1 + 1) ++ ":\n"
      let acc2 := is.2.shapes.foldl (fun a sh =>
        match sh.text with
        | some t => a ++ t ++ "\n"
        | none => a) acc1
      let tt := extract_table_text is.2
      let acc3 := if tt ≠ "" then acc2 ++ "Table Content:\n" ++ tt else acc2
      acc3 ++ "\n") ""))

/-- A word-processor document as seen by `extract_text_from_docx`:
paragraph texts and tables of rows of cell texts. -/
structure DocxDoc where
  paragraphs : List String
  tables : List (List (List String))
deriving DecidableEq

/-- `extract_text_from_docx` (src/extraction.py lines 88-102).
`Document(docx_path)` is modelled by the `Except` argument: the function
body contains no `try`/`except`, so a parser failure propagates out
unchanged. -/
def extract_text_from_docx (document : Except String DocxDoc) :
    Except String String :=
  match document with
  | .error e => .error e
  | .ok doc =>
    let t1 := doc.paragraphs.foldl (fun a p => a ++ p ++ "\n") ""
    .ok (doc.tables.foldl (fun a tbl =>
      tbl.foldl (fun a2 row =>
        (row.foldl (fun a3 c => a3 ++ c ++ " ") a2) ++ "\n") a) t1)

/-- `read_excel_file` (src/extraction.py lines 189-210): dispatches on the
file suffix to the CSV or Excel reader (each modelled by an `Except`
carrying the extracted cell strings or the parser exception); an
unsupported suffix raises `ValueError("Unsupported file format.")`.  The
`except` clause logs and then re-raises (`raise`), so every failure
propagates to the caller. -/
def read_excel_file (file_path : String)
    (csvText excelText : Except String (List String)) :
    Except String (List String) :=
  if pyEndsWith file_path ".csv" then csvText
  else if pyEndsWith file_path ".xls" || pyEndsWith file_path ".xlsx" then excelText
  else .error "Unsupported file format."

/-- Extension table of the `PROCESSORS` dispatch dict
(src/main.py lines 33-47). -/
def PROCESSORS_exts : List String :=
  [".pdf", ".ppt", ".pptx", ".docx", ".json", ".txt", ".csv", ".xls", ".xlsx",
   ".log", ".msg", ".eml", ".yaml"]

/-- `os.path.splitext(p)[1]`: the extension of the last path component,
where the leading dots of a component are not split points
(`".bashrc"` has no extension, `"a.b.c"` has extension `".c"`). -/
def pySplitextExt (p : String) : String :=
  let b := afterLastSep '/' p.data
  let lead := (b.takeWhile (fun c => c = '.')).length
  let rest := b.drop lead
  let tail := rest.reverse.takeWhile (fun c => c != '.')
  if tail.length = rest.length then "" else ⟨'.' :: tail.reverse⟩

/-- The dispatch decision of `process_file` (src/main.py lines 88-96):
lowercase the whole path, split the extension, and return the matched
extension key of `PROCESSORS` or `none` (Python `None`, the skip
outcome) for an unsupported extension. -/
def process_file_dispatch (file_path : String) : Option String :=
  if PROCESSORS_exts.contains (pySplitextExt (pyLower file_path)) then
    some (pySplitextExt (pyLower file_path))
  else none

/-- `Output_{date_time_string}.xlsx` under the output directory
(src/main.py lines 202-203). -/
def output_excel_path (output_directory date_time_string : String) : String :=
  pyJoin output_directory ("Output_" ++ date_time_string ++ ".xlsx")

/-- `processing_report.json` under the output directory
(src/main.py line 130): the name carries no timestamp. -/
def report_json_path (output_path : String) : String :=
  pyJoin output_path "processing_report.json"

/-- The two artifact paths a run with timestamp string
`date_time_string` writes (src/main.py lines 202-206 and 130). -/
def run_artifact_paths (output_directory date_time_string : String) : String × String :=
  (output_excel_path output_directory date_time_string,
   report_json_path output_directory)

/-- The matched/unmatched tallies the loop body accumulates for one file
(src/main.py lines 174-186): one count per entry of the
`search_words_in_text` dict, split on the boolean. -/
def fileCounts (kws : List String) (t : Payload) : Nat × Nat :=
  (((search_words_in_text t kws).filter (fun wr => wr.2)).length,
   ((search_words_in_text t kws).filter (fun wr => !wr.2)).length)

/-- The running state of the `main` scan loop (src/main.py lines 154-199):
the flat result rows, the three path sets, and the per-basename counts
dict. -/
structure ScanState where
  all_results : List (String × String × String × String)
  processed : Finset String
  matched : Finset String
  unmatched : Finset String
  file_word_counts : List (String × (Nat × Nat))
deriving DecidableEq

/-- The state before the loop (src/main.py lines 154-160). -/
def initState : ScanState :=
  ⟨[], ∅, ∅, ∅, []⟩

/-- One iteration of the scan loop (src/main.py lines 163-199): join the
path, extract (`process_file`, modelled by the `extract` oracle), always
add to `processed`; when the result is truthy, build the match dict, emit
one row per entry, add to `matched` when some keyword matched else to
`unmatched`, and store the counts under the basename.  A falsy result
(`None`, `""`, `[]`) leaves everything but `processed` untouched. -/
def processOneFile (directory_path : String) (keywords : List String)
    (extract : String → Option Payload) (st : ScanState) (file : String) : ScanState :=
  let file_path := pyJoin directory_path file
  let st1 : ScanState := { st with processed := insert file_path st.processed }
  match extract file_path with
  | none => st1
  | some payload =>
    if pyTruthy payload then
      let word_results := search_words_in_text payload keywords
      let file_matched := word_results.any (fun wr => wr.2)
      { all_results := st1.all_results ++ word_results.map (fun wr =>
          (pySplitBackslashLast file, file_path, wr.1,
           if wr.2 then "matched" else "not matched")),
        processed := st1.processed,
        matched := if file_matched then insert file_path st1.matched else st1.matched,
        unmatched := if file_matched then st1.unmatched else insert file_path st1.unmatched,
        file_word_counts := dictAssign st1.file_word_counts (pyBasename file_path)
          (fileCounts keywords payload) }
    else st1

/-- The whole scan loop over the discovered files. -/
def runScan (directory_path : String) (keywords : List String)
    (extract : String → Option Payload) (files : List String) : ScanState :=
  files.foldl (processOneFile directory_path keywords extract) initState

/-- Whether extraction of `p` produced a truthy value (the loop's
`if extracted_text:`). -/
def extractTruthy (extract : String → Option Payload) (p : String) : Bool :=
  match extract p with
  | some t => pyTruthy t
  | none => false

/-- Whether the file at `p` has a truthy extraction with at least one
matching keyword (the loop's `file_matched` flag). -/
def fileAnyMatch (keywords : List String) (extract : String → Option Payload)
    (p : String) : Bool :=
  match extract p with
  | some t => pyTruthy t && (search_words_in_text t keywords).any (fun wr => wr.2)
  | none => false

/-- The loop invariant of the scan: membership in `matched` and
`unmatched` is determined by the file's extraction and match outcome, and
both sets stay inside `processed`. -/
def ScanInv (kws : List String) (extract : String → Option Payload)
    (st : ScanState) : Prop :=
  (∀ p ∈ st.matched, fileAnyMatch kws extract p = true) ∧
  (∀ p ∈ st.unmatched,
    extractTruthy extract p = true ∧ fileAnyMatch kws extract p = false) ∧
  (∀ p ∈ st.matched, p ∈ st.processed) ∧
  (∀ p ∈ st.unmatched, p ∈ st.processed)

theorem dictLookup_map_assign {β : Type} (d : List (String × β)) (k : String) (v : β)
    (w : String) :
    dictLookup (d.map (fun p => if p.1 = k then (k, v) else p)) w =
      if w = k then (if d.any (fun p => p.1 == k) then some v else none)
      else dictLookup d w := by
  induction d with
  | nil => by_cases hw : w = k <;> simp [dictLookup, hw]
  | cons p r ih =>
    simp only [List.map_cons]
    by_cases hk : p.1 = k
    · by_cases hw : w = k
      · simp [dictLookup, List.any_cons, hk, hw]
      · have hkw : ¬ k = w := fun h => hw h.symm
        simp [dictLookup, hk, hw, hkw, ih]
    · have hbk : (p.1 == k) = false := beq_eq_false_iff_ne.mpr hk
      by_cases hpw : p.1 = w
      · have hwk : ¬ w = k := fun h => hk (hpw.trans h)
        simp [dictLookup, hk, hpw, hwk]
      · have hcond :
            (if ((p :: r).any fun q => q.1 == k) = true then (some v : Option β) else none)
              = (if (r.any fun q => q.1 == k) = true then some v else none) :=
          if_congr (by simp [List.any_cons, hbk]) rfl rfl
        rw [hcond]
        simp [dictLookup, hk, hpw, ih]

theorem dictLookup_append_single {β : Type} (d : List (String × β)) (k : String) (v : β)
    (w : String) :
    dictLookup (d ++ [(k, v)]) w =
      if w = k then (if d.any (fun p => p.1 == k) then dictLookup d w else some v)
      else dictLookup d w := by
  induction d with
  | nil =>
    by_cases hw : w = k
    · simp [dictLookup, hw]
    · have hkw : ¬ k = w := fun h => hw h.symm
      simp [dictLookup, hw, hkw]
  | cons p r ih =>
    simp only [List.cons_append]
    by_cases hpw : p.1 = w
    · by_cases hw : w = k
      · have hpk : p.1 = k := hpw.trans hw
        simp [dictLookup, List.any_cons, hpw, hpk, hw]
      · simp [dictLookup, hpw, hw]
    · by_cases hw : w = k
      · have hbk : (p.1 == k) = false :=
          beq_eq_false_iff_ne.mpr (fun h => hpw (h.trans hw.symm))
        have hcond :
            (if ((p :: r).any fun q => q.1 == k) = true then dictLookup (p :: r) w else some v)
              = (if (r.any fun q => q.1 == k) = true then dictLookup (p :: r) w else some v) :=
          if_congr (by simp [List.any_cons, hbk]) rfl rfl
        rw [if_pos hw, hcond]
        have hpk : ¬ p.1 = k := fun h => hpw (h.trans hw.symm)
        rw [hw] at ih ⊢
        simp only [if_pos rfl] at ih
        simp [dictLookup, hpk, ih]
      · simp [dictLookup, hpw, hw, ih]

theorem dictLookup_assign {β : Type} (d : List (String × β)) (k : String) (v : β)
    (w : String) :
    dictLookup (dictAssign d k v) w = if w = k then some v else dictLookup d w := by
  unfold dictAssign
  by_cases h : d.any (fun p => p.1 == k) = true
  · rw [if_pos h, dictLookup_map_assign]
    by_cases hw : w = k <;> simp [hw, h]
  · rw [if_neg h, dictLookup_append_single]
    have h' : d.any (fun p => p.1 == k) = false := by
      cases hany : d.any (fun p => p.1 == k) with
      | false => rfl
      | true => exact absurd hany h
    by_cases hw : w = k <;> simp [hw, h']

theorem dictLookup_search_fold (text : Payload) (kws : List String)
    (d : List (String × Bool)) (w : String) :
    dictLookup (kws.foldl (fun d word => dictAssign d word (pyIn word text)) d) w =
      if w ∈ kws then some (pyIn w text) else dictLookup d w := by
  induction kws generalizing d with
  | nil => simp
  | cons k ws ih =>
    simp only [List.foldl_cons, ih, dictLookup_assign]
    by_cases hw : w ∈ ws
    · simp [hw]
    · by_cases hwk : w = k <;> simp [hw, hwk]

theorem search_words_lookup (text : Payload) (kws : List String) (w : String) :
    dictLookup (search_words_in_text text kws) w =
      if w ∈ kws then some (pyIn w text) else none := by
  unfold search_words_in_text
  rw [dictLookup_search_fold]
  rfl

theorem mem_dictAssign {β : Type} {d : List (String × β)} {k : String} {v : β}
    {e : String × β} (h : e ∈ dictAssign d k v) : e ∈ d ∨ e = (k, v) := by
  unfold dictAssign at h
  split at h
  · rcases List.mem_map.mp h with ⟨p, hp, he⟩
    by_cases hpk : p.1 = k
    · right; simp [hpk] at he; exact he.symm
    · left; simp [hpk] at he; exact he ▸ hp
  · rcases List.mem_append.mp h with h' | h'
    · exact Or.inl h'
    · right; simpa using h'

theorem dictKeys_assign {β : Type} (d : List (String × β)) (k : String) (v : β) :
    dictKeys (dictAssign d k v) =
      if d.any (fun p => p.1 == k) then dictKeys d else dictKeys d ++ [k] := by
  unfold dictAssign dictKeys
  split
  · rw [List.map_map]
    refine List.map_congr_left ?_
    intro p hp
    by_cases hpk : p.1 = k <;> simp [hpk]
  · simp

theorem dict_any_iff_mem_keys {β : Type} (d : List (String × β)) (k : String) :
    d.any (fun p => p.1 == k) = true ↔ k ∈ dictKeys d := by
  constructor
  · intro h
    rcases List.any_eq_true.mp h with ⟨p, hp, hbeq⟩
    exact List.mem_map.mpr ⟨p, hp, beq_iff_eq.mp hbeq⟩
  · intro h
    rcases List.mem_map.mp h with ⟨p, hp, he⟩
    exact List.any_eq_true.mpr ⟨p, hp, beq_iff_eq.mpr he⟩

theorem dictKeys_assign_nodup {β : Type} {d : List (String × β)}
    (h : (dictKeys d).Nodup) (k : String) (v : β) :
    (dictKeys (dictAssign d k v)).Nodup := by
  rw [dictKeys_assign]
  split
  · exact h
  · have hk : k ∉ dictKeys d := fun hmem =>
      (by assumption : ¬ d.any (fun p => p.1 == k) = true)
        ((dict_any_iff_mem_keys d k).mpr hmem)
    exact List.Nodup.append h (List.nodup_singleton k)
      (fun a ha hak => hk ((List.mem_singleton.mp hak) ▸ ha))

theorem dictKeys_assign_toFinset {β : Type} (d : List (String × β)) (k : String) (v : β) :
    (dictKeys (dictAssign d k v)).toFinset = insert k (dictKeys d).toFinset := by
  rw [dictKeys_assign]
  split
  · have hk : k ∈ dictKeys d :=
      (dict_any_iff_mem_keys d k).mp (by assumption)
    rw [Finset.insert_eq_self.mpr (List.mem_toFinset.mpr hk)]
  · ext a
    simp only [List.mem_toFinset, List.mem_append, List.mem_singleton, Finset.mem_insert]
    exact or_comm

theorem search_fold_keys (text : Payload) (kws : List String) :
    ∀ d : List (String × Bool), (dictKeys d).Nodup →
      (dictKeys (kws.foldl (fun d w => dictAssign d w (pyIn w text)) d)).Nodup ∧
      (dictKeys (kws.foldl (fun d w => dictAssign d w (pyIn w text)) d)).toFinset
        = (dictKeys d).toFinset ∪ kws.toFinset := by
  induction kws with
  | nil =>
    intro d hd
    simpa using hd
  | cons k ws ih =>
    intro d hd
    simp only [List.foldl_cons]
    obtain ⟨h1, h2⟩ := ih (dictAssign d k (pyIn k text)) (dictKeys_assign_nodup hd _ _)
    refine ⟨h1, ?_⟩
    rw [h2, dictKeys_assign_toFinset]
    simp [Finset.insert_union, Finset.union_insert]

theorem search_words_length (text : Payload) (kws : List String) :
    (search_words_in_text text kws).length = kws.toFinset.card := by
  have h := search_fold_keys text kws [] (by simp [dictKeys])
  unfold search_words_in_text
  have hlen :
      (kws.foldl (fun d w => dictAssign d w (pyIn w text)) []).length
        = (dictKeys (kws.foldl (fun d w => dictAssign d w (pyIn w text)) [])).length := by
    simp [dictKeys]
  rw [hlen, ← List.toFinset_card_of_nodup h.1, h.2]
  simp [dictKeys]

theorem search_fold_mem_val (text : Payload) (kws : List String) :
    ∀ d : List (String × Bool), (∀ e ∈ d, e.2 = pyIn e.1 text) →
      ∀ e ∈ kws.foldl (fun d w => dictAssign d w (pyIn w text)) d, e.2 = pyIn e.1 text := by
  induction kws with
  | nil =>
    intro d hd
    simpa using hd
  | cons k ws ih =>
    intro d hd
    simp only [List.foldl_cons]
    refine ih _ ?_
    intro e he
    rcases mem_dictAssign he with h | h
    · exact hd e h
    · rw [h]

theorem search_words_mem_val (text : Payload) (kws : List String) :
    ∀ e ∈ search_words_in_text text kws, e.2 = pyIn e.1 text :=
  search_fold_mem_val text kws [] (by simp)

theorem length_filter_add_length_not {α : Type} (l : List α) (p : α → Bool) :
    (l.filter p).length + (l.filter (fun a => !p a)).length = l.length := by
  induction l with
  | nil => rfl
  | cons a t ih => by_cases h : p a <;> simp [List.filter, h, ih] <;> omega

/-- C1, counterexample.  The claim says every keyword is reported `true`
iff it occurs as a literal case-sensitive substring of the extracted text,
"including for extracted text produced by the tabular CSV/XLS/XLSX
capabilities".  Those capabilities return a Python list of cell strings,
and the matcher's `word in text` is then list membership, not substring
search: with extracted text `["concatenate"]` the keyword `"cat"` is a
substring of the extracted text's content but `search_words_in_text`
reports `false` for it. -/
theorem search_words_tabular_counterexample :
    dictLookup (search_words_in_text (.list ["concatenate"]) ["cat"]) "cat" = some false ∧
    specSubstringMatch "cat" (.list ["concatenate"]) = true := by
  decide

/-- C1, amended.  For every keyword in the keyword list,
`search_words_in_text` reports: for string-typed extracted text exactly
case-sensitive substring containment (no tokenization or whole-word
boundary), and for list-typed extracted text (the tabular CSV/XLS/XLSX
capabilities) exact equality with one of the extracted cell strings. -/
theorem search_words_in_text_semantics (s : String) (l : List String)
    (kws : List String) (w : String) (h : w ∈ kws) :
    dictLookup (search_words_in_text (.str s) kws) w = some (isSubstrOf w.data s.data) ∧
    dictLookup (search_words_in_text (.list l) kws) w = some (l.contains w) := by
  constructor <;> rw [search_words_lookup] <;> simp [h, pyIn]

/-- Witness for `search_words_in_text_semantics` at concrete inputs. -/
theorem search_words_in_text_semantics_witness :
    dictLookup (search_words_in_text (.str "concatenate") ["cat"]) "cat"
        = some (isSubstrOf "cat".data "concatenate".data) ∧
    dictLookup (search_words_in_text (.list ["concatenate"]) ["cat"]) "cat"
        = some ((["concatenate"] : List String).contains "cat") :=
  search_words_in_text_semantics "concatenate" ["concatenate"] ["cat"] "cat" (by decide)

/-- C4.  The PDF extractor first returns the primary (PyMuPDF) text when
that attempt did not raise and its stripped text is non-empty; otherwise
it attempts the secondary pdfplumber parser and returns its (appended)
text when non-empty; and when the primary yields empty text and the
secondary yields empty text, it returns exactly the sentinel
`"No text extracted."` instead of failing. -/
theorem extract_text_from_pdf_fallback_chain (ft pt : String) (fr pr : Bool) :
    (fr = false → pyStrip ft ≠ "" → extract_text_from_pdf ft fr pt pr = ft) ∧
    (¬(fr = false ∧ pyStrip ft ≠ "") → pr = false → pyStrip (ft ++ pt) ≠ "" →
      extract_text_from_pdf ft fr pt pr = ft ++ pt) ∧
    (pyStrip ft = "" → pt = "" →
      extract_text_from_pdf ft fr pt pr = "No text extracted.") := by
  refine ⟨?_, ?_, ?_⟩
  · intro h1 h2
    unfold extract_text_from_pdf
    rw [if_pos ⟨h1, h2⟩]
  · intro h1 h2 h3
    unfold extract_text_from_pdf
    rw [if_neg h1, if_pos ⟨h2, h3⟩]
  · intro h1 h2
    unfold extract_text_from_pdf
    rw [if_neg (fun h => h.2 h1)]
    subst h2
    simp only [show ft ++ "" = ft from by simp]
    rw [if_neg (fun h => h.2 h1)]

/-- Witness for `extract_text_from_pdf_fallback_chain` at concrete
inputs. -/
theorem extract_text_from_pdf_fallback_chain_witness :
    extract_text_from_pdf "body" false " " false = "body" ∧
    extract_text_from_pdf "" true "recovered" false = "recovered" ∧
    extract_text_from_pdf " " false "" true = "No text extracted." := by
  refine ⟨?_, ?_, ?_⟩
  · exact (extract_text_from_pdf_fallback_chain "body" " " false false).1 rfl (by decide)
  · have h := (extract_text_from_pdf_fallback_chain "" "recovered" true false).2.1
      (by decide) rfl (by decide)
    simpa using h
  · exact (extract_text_from_pdf_fallback_chain " " "" false true).2.2 (by decide) rfl

/-- C3 (code bug).  The spec requires every capability to catch parser
and I/O failures internally and return a descriptive failure string, but
`extract_text_from_ppt` and `extract_text_from_docx` contain no
`try`/`except` at all, and `read_excel_file`'s handler re-raises; a parser
failure therefore escapes the capability (as does the `ValueError` for a
suffix the tabular reader does not accept). -/
theorem capability_exception_escapes :
    extract_text_from_ppt (.error "ppt parse failure") = .error "ppt parse failure" ∧
    extract_text_from_docx (.error "docx parse failure") = .error "docx parse failure" ∧
    read_excel_file "scan.csv" (.error "csv parse failure") (.ok [])
        = .error "csv parse failure" ∧
    read_excel_file "notes.txt" (.ok []) (.ok []) = .error "Unsupported file format." :=
  ⟨rfl, rfl, rfl, rfl⟩

/-- C7.  The dispatcher matches the extension case-insensitively (its
result depends on the path only through its lowercasing), is a total
function (never throws), and returns the skip outcome `none` — distinct
from any extraction result — exactly for the extensions missing from the
`PROCESSORS` table. -/
theorem process_file_dispatch_spec :
    (∀ p q : String, pyLower p = pyLower q →
      process_file_dispatch p = process_file_dispatch q) ∧
    (∀ p : String, process_file_dispatch p = none ↔
      PROCESSORS_exts.contains (pySplitextExt (pyLower p)) = false) := by
  constructor
  · intro p q h
    unfold process_file_dispatch
    rw [h]
  · intro p
    unfold process_file_dispatch
    by_cases h : PROCESSORS_exts.contains (pySplitextExt (pyLower p)) = true
    · simp [h]
    · have h' : PROCESSORS_exts.contains (pySplitextExt (pyLower p)) = false := by
        cases hc : PROCESSORS_exts.contains (pySplitextExt (pyLower p)) with
        | false => rfl
        | true => exact absurd hc h
      simp [h']

/-- Witness for `process_file_dispatch_spec`: a mixed-case `.PDF` path
dispatches like its lowercase twin, and an unsupported `.bmp` path
yields the skip outcome. -/
theorem process_file_dispatch_spec_witness :
    process_file_dispatch "Dir/Report.PDF" = process_file_dispatch "dir/report.pdf" ∧
    process_file_dispatch "photo.bmp" = none :=
  ⟨process_file_dispatch_spec.1 "Dir/Report.PDF" "dir/report.pdf" (by decide),
   (process_file_dispatch_spec.2 "photo.bmp").mpr (by decide)⟩

/-- C9, counterexample.  The claim says both artifact names differ across
runs at different times; but the summary document is always written to
`processing_report.json` (src/main.py line 130), so two runs with
different timestamps produce the identical summary path. -/
theorem report_artifact_name_collision :
    ("2025-01-01_10H_30M" : String) ≠ "2025-03-04_16H_45M" ∧
    (run_artifact_paths "out" "2025-01-01_10H_30M").2 =
      (run_artifact_paths "out" "2025-03-04_16H_45M").2 :=
  ⟨by decide, rfl⟩

theorem output_name_inj (ts1 ts2 : String)
    (h : ("Output_" ++ ts1 ++ ".xlsx").data = ("Output_" ++ ts2 ++ ".xlsx").data) :
    ts1 = ts2 := by
  have h1 : ("Output_".data ++ ts1.data) ++ ".xlsx".data
      = ("Output_".data ++ ts2.data) ++ ".xlsx".data := h
  have h2 := List.append_cancel_right h1
  have h3 := List.append_cancel_left h2
  exact congrArg String.mk h3

/-- C9, amended.  The flat match table's name embeds the run's timestamp
string (`Output_{ts}.xlsx`), so runs with different timestamp strings
(minute resolution) write tables with different names; the summary
document's name is `processing_report.json` for every run, identical
across runs. -/
theorem run_artifact_paths_distinct (o ts1 ts2 : String) (h : ts1 ≠ ts2) :
    (run_artifact_paths o ts1).1 ≠ (run_artifact_paths o ts2).1 ∧
    (run_artifact_paths o ts1).2 = (run_artifact_paths o ts2).2 := by
  constructor
  · intro heq
    apply h
    apply output_name_inj
    unfold run_artifact_paths output_excel_path pyJoin at heq
    have hh1 : (("Output_" ++ ts1 ++ ".xlsx").data).head? = some 'O' := by
      show (("Output_".data ++ ts1.data) ++ ".xlsx".data).head? = some 'O'
      rfl
    have hh2 : (("Output_" ++ ts2 ++ ".xlsx").data).head? = some 'O' := by
      show (("Output_".data ++ ts2.data) ++ ".xlsx".data).head? = some 'O'
      rfl
    have h1x : ¬ ((("Output_" ++ ts1 ++ ".xlsx").data).head? = some '/') := by
      rw [hh1]; decide
    have h2x : ¬ ((("Output_" ++ ts2 ++ ".xlsx").data).head? = some '/') := by
      rw [hh2]; decide
    rw [if_neg h1x, if_neg h2x] at heq
    by_cases ho : o.data = []
    · rw [if_pos ho, if_pos ho] at heq
      exact congrArg String.data heq
    · rw [if_neg ho, if_neg ho] at heq
      by_cases ho2 : o.data.getLast? = some '/'
      · rw [if_pos ho2, if_pos ho2] at heq
        have h' := congrArg String.data heq
        exact List.append_cancel_left h'
      · rw [if_neg ho2, if_neg ho2] at heq
        have h' := congrArg String.data heq
        have h'' := List.append_cancel_left h'
        injection h''
  · rfl

/-- Witness for `run_artifact_paths_distinct` at two concrete
timestamps. -/
theorem run_artifact_paths_distinct_witness :
    (run_artifact_paths "out" "2025-01-01_10H_30M").1
        ≠ (run_artifact_paths "out" "2025-03-04_16H_45M").1 ∧
    (run_artifact_paths "out" "2025-01-01_10H_30M").2
        = (run_artifact_paths "out" "2025-03-04_16H_45M").2 :=
  run_artifact_paths_distinct "out" "2025-01-01_10H_30M" "2025-03-04_16H_45M" (by decide)

theorem processed_processOneFile (d : String) (kws : List String)
    (extract : String → Option Payload) (st : ScanState) (f : String) :
    (processOneFile d kws extract st f).processed = insert (pyJoin d f) st.processed := by
  rcases hext : extract (pyJoin d f) with _ | t
  · simp [processOneFile, hext]
  · cases ht : pyTruthy t <;> simp [processOneFile, hext, ht]

theorem matched_processOneFile (d : String) (kws : List String)
    (extract : String → Option Payload) (st : ScanState) (f : String) :
    (processOneFile d kws extract st f).matched =
      if fileAnyMatch kws extract (pyJoin d f) = true
      then insert (pyJoin d f) st.matched else st.matched := by
  rcases hext : extract (pyJoin d f) with _ | t
  · simp [processOneFile, fileAnyMatch, hext]
  · cases ht : pyTruthy t <;>
      cases hm : (search_words_in_text t kws).any (fun wr => wr.2) <;>
        simp [processOneFile, fileAnyMatch, hext, ht, hm]

theorem unmatched_processOneFile (d : String) (kws : List String)
    (extract : String → Option Payload) (st : ScanState) (f : String) :
    (processOneFile d kws extract st f).unmatched =
      if extractTruthy extract (pyJoin d f) = true ∧
          fileAnyMatch kws extract (pyJoin d f) = false
      then insert (pyJoin d f) st.unmatched else st.unmatched := by
  rcases hext : extract (pyJoin d f) with _ | t
  · simp [processOneFile, fileAnyMatch, extractTruthy, hext]
  · cases ht : pyTruthy t <;>
      cases hm : (search_words_in_text t kws).any (fun wr => wr.2) <;>
        simp [processOneFile, fileAnyMatch, extractTruthy, hext, ht, hm]

theorem counts_processOneFile_hit (d : String) (kws : List String)
    (extract : String → Option Payload) (st : ScanState) (f : String) (t : Payload)
    (hext : extract (pyJoin d f) = some t) (ht : pyTruthy t = true) :
    (processOneFile d kws extract st f).file_word_counts
      = dictAssign st.file_word_counts (pyBasename (pyJoin d f)) (fileCounts kws t) := by
  simp [processOneFile, hext, ht]

theorem counts_processOneFile_miss (d : String) (kws : List String)
    (extract : String → Option Payload) (st : ScanState) (f : String)
    (hmiss : extractTruthy extract (pyJoin d f) = false) :
    (processOneFile d kws extract st f).file_word_counts = st.file_word_counts := by
  rcases hext : extract (pyJoin d f) with _ | t
  · simp [processOneFile, hext]
  · have ht : pyTruthy t = false := by
      simpa [extractTruthy, hext] using hmiss
    simp [processOneFile, hext, ht]

theorem search_counts_sum (l : List (String × Bool)) :
    (l.filter (fun wr => wr.2)).length + (l.filter (fun wr => !wr.2)).length = l.length := by
  induction l with
  | nil => rfl
  | cons a t ih => by_cases h : a.2 <;> simp [List.filter, h, ih] <;> omega

theorem fileCounts_sum (kws : List String) (t : Payload) :
    (fileCounts kws t).1 + (fileCounts kws t).2 = kws.toFinset.card := by
  unfold fileCounts
  rw [search_counts_sum, search_words_length]

theorem search_fold_mem_key (text : Payload) (kws : List String) :
    ∀ ws : List String, (∀ w ∈ ws, w ∈ kws) →
      ∀ d : List (String × Bool), (∀ e ∈ d, e.1 ∈ kws) →
      ∀ e ∈ ws.foldl (fun d w => dictAssign d w (pyIn w text)) d, e.1 ∈ kws := by
  intro ws
  induction ws with
  | nil =>
    intro _ d hd e he
    exact hd e (by simpa using he)
  | cons k ks ih =>
    intro hsub d hd e he
    simp only [List.foldl_cons] at he
    refine ih (fun w hw => hsub w (List.mem_cons_of_mem _ hw)) _ ?_ e he
    intro e' he'
    rcases mem_dictAssign he' with h' | h'
    · exact hd e' h'
    · rw [h']
      exact hsub k (List.mem_cons_self k ks)

theorem search_words_mem_key (text : Payload) (kws : List String) :
    ∀ e ∈ search_words_in_text text kws, e.1 ∈ kws :=
  search_fold_mem_key text kws kws (fun _ hw => hw) [] (by simp)

theorem scanInv_processOneFile (d : String) (kws : List String)
    (extract : String → Option Payload) (st : ScanState) (f : String)
    (h : ScanInv kws extract st) :
    ScanInv kws extract (processOneFile d kws extract st f) := by
  obtain ⟨h1, h2, h3, h4⟩ := h
  refine ⟨?_, ?_, ?_, ?_⟩
  · intro p hp
    rw [matched_processOneFile] at hp
    split at hp
    · rcases Finset.mem_insert.mp hp with rfl | hp'
      · assumption
      · exact h1 p hp'
    · exact h1 p hp
  · intro p hp
    rw [unmatched_processOneFile] at hp
    split at hp
    · rcases Finset.mem_insert.mp hp with rfl | hp'
      · assumption
      · exact h2 p hp'
    · exact h2 p hp
  · intro p hp
    rw [matched_processOneFile] at hp
    rw [processed_processOneFile]
    split at hp
    · rcases Finset.mem_insert.mp hp with rfl | hp'
      · exact Finset.mem_insert_self _ _
      · exact Finset.mem_insert_of_mem (h3 p hp')
    · exact Finset.mem_insert_of_mem (h3 p hp)
  · intro p hp
    rw [unmatched_processOneFile] at hp
    rw [processed_processOneFile]
    split at hp
    · rcases Finset.mem_insert.mp hp with rfl | hp'
      · exact Finset.mem_insert_self _ _
      · exact Finset.mem_insert_of_mem (h4 p hp')
    · exact Finset.mem_insert_of_mem (h4 p hp)

theorem scanInv_fold (d : String) (kws : List String)
    (extract : String → Option Payload) (files : List String) :
    ∀ st : ScanState, ScanInv kws extract st →
      ScanInv kws extract (files.foldl (processOneFile d kws extract) st) := by
  induction files with
  | nil =>
    intro st h
    simpa using h
  | cons f fs ih =>
    intro st h
    simp only [List.foldl_cons]
    exact ih _ (scanInv_processOneFile d kws extract st f h)

theorem scanInv_runScan (d : String) (kws : List String)
    (extract : String → Option Payload) (files : List String) :
    ScanInv kws extract (runScan d kws extract files) := by
  refine scanInv_fold d kws extract files initState ⟨?_, ?_, ?_, ?_⟩ <;>
    intro p hp <;> simp [initState] at hp

theorem processed_fold (d : String) (kws : List String)
    (extract : String → Option Payload) (files : List String) :
    ∀ st : ScanState, (files.foldl (processOneFile d kws extract) st).processed
      = st.processed ∪ (files.map (pyJoin d)).toFinset := by
  induction files with
  | nil =>
    intro st
    simp
  | cons f fs ih =>
    intro st
    simp only [List.foldl_cons, List.map_cons, List.toFinset_cons]
    rw [ih, processed_processOneFile]
    ext a
    simp only [Finset.mem_union, Finset.mem_insert]
    tauto

theorem processed_runScan (d : String) (kws : List String)
    (extract : String → Option Payload) (files : List String) :
    (runScan d kws extract files).processed = (files.map (pyJoin d)).toFinset := by
  have h := processed_fold d kws extract files initState
  simpa [initState, runScan] using h

/-- C2 (code bug).  An unsupported `.bmp` file is dispatched to the skip
outcome, is added to the processed set, contributes no result rows and no
FileSummary entry — but the loop classifies a file as unmatched only
inside `if extracted_text:` (src/main.py lines 169-195), so a skipped
file lands in neither `matched_files` nor `unmatched_files`, while the
claim (and spec) require it to be classified unmatched. -/
theorem unsupported_file_not_classified :
    process_file_dispatch "d/photo.bmp" = none ∧
    (runScan "d" ["confidential"] (fun _ => none) ["photo.bmp"]).processed
        = {"d/photo.bmp"} ∧
    (runScan "d" ["confidential"] (fun _ => none) ["photo.bmp"]).all_results = [] ∧
    (runScan "d" ["confidential"] (fun _ => none) ["photo.bmp"]).file_word_counts = [] ∧
    (runScan "d" ["confidential"] (fun _ => none) ["photo.bmp"]).matched = ∅ ∧
    (runScan "d" ["confidential"] (fun _ => none) ["photo.bmp"]).unmatched = ∅ := by
  refine ⟨by decide, by decide, rfl, rfl, by decide, by decide⟩

theorem counts_sum_fold (d : String) (kws : List String)
    (extract : String → Option Payload) (files : List String) :
    ∀ st : ScanState,
      (∀ e ∈ st.file_word_counts, e.2.1 + e.2.2 = kws.toFinset.card) →
      ∀ e ∈ (files.foldl (processOneFile d kws extract) st).file_word_counts,
        e.2.1 + e.2.2 = kws.toFinset.card := by
  induction files with
  | nil =>
    intro st h
    simpa using h
  | cons f fs ih =>
    intro st h
    simp only [List.foldl_cons]
    refine ih _ ?_
    intro e he
    rcases hext : extract (pyJoin d f) with _ | t
    · rw [counts_processOneFile_miss d kws extract st f (by simp [extractTruthy, hext])] at he
      exact h e he
    · cases ht : pyTruthy t with
      | false =>
        rw [counts_processOneFile_miss d kws extract st f
          (by simp [extractTruthy, hext, ht])] at he
        exact h e he
      | true =>
        rw [counts_processOneFile_hit d kws extract st f t hext ht] at he
        rcases mem_dictAssign he with h' | h'
        · exact h e h'
        · rw [h']
          exact fileCounts_sum kws t

/-- C5.  Every FileSummary entry recorded in `file_word_counts` — one is
recorded exactly for the files whose extraction produced a truthy value —
satisfies `matched_count + unmatched_count = |KeywordSet|`, where
`|KeywordSet|` is the number of distinct keywords. -/
theorem file_word_counts_sum (d : String) (kws : List String)
    (extract : String → Option Payload) (files : List String)
    (e : String × Nat × Nat)
    (he : e ∈ (runScan d kws extract files).file_word_counts) :
    e.2.1 + e.2.2 = kws.toFinset.card :=
  counts_sum_fold d kws extract files initState (by simp [initState]) e he

/-- Witness for `file_word_counts_sum`: spec Scenario 1, a text file
containing `"invoice approved"` against keywords
`["invoice", "rejected"]` records counts `(1, 1)` and `1 + 1` is the
keyword count `2`. -/
theorem file_word_counts_sum_witness :
    (("a.txt", (1, 1)) : String × Nat × Nat) ∈
      (runScan "d" ["invoice", "rejected"]
        (fun _ => some (.str "invoice approved")) ["a.txt"]).file_word_counts ∧
    (1 : Nat) + 1 = (["invoice", "rejected"] : List String).toFinset.card :=
  ⟨by decide,
   file_word_counts_sum "d" ["invoice", "rejected"]
     (fun _ => some (.str "invoice approved")) ["a.txt"] ("a.txt", (1, 1)) (by decide)⟩

/-- C6.  After a run, `matched_files` and `unmatched_files` are disjoint,
their union is contained in `processed_files`, and — the discovered paths
being distinct, as `os.walk` yields them — the processed set has exactly
one element per discovered file. -/
theorem report_sets_invariants (d : String) (kws : List String)
    (extract : String → Option Payload) (files : List String) :
    (runScan d kws extract files).matched ∩ (runScan d kws extract files).unmatched = ∅ ∧
    (runScan d kws extract files).matched ∪ (runScan d kws extract files).unmatched
        ⊆ (runScan d kws extract files).processed ∧
    ((files.map (pyJoin d)).Nodup →
      (runScan d kws extract files).processed.card = files.length) := by
  obtain ⟨h1, h2, h3, h4⟩ := scanInv_runScan d kws extract files
  refine ⟨?_, ?_, ?_⟩
  · ext p
    simp only [Finset.mem_inter, Finset.not_mem_empty, iff_false, not_and]
    intro hm hu
    have ha := h1 p hm
    have hb := (h2 p hu).2
    rw [ha] at hb
    exact absurd hb (by decide)
  · intro p hp
    rcases Finset.mem_union.mp hp with h | h
    · exact h3 p h
    · exact h4 p h
  · intro hnd
    rw [processed_runScan, List.toFinset_card_of_nodup hnd, List.length_map]

/-- Witness for `report_sets_invariants` on a concrete two-file run. -/
theorem report_sets_invariants_witness :
    ((["a.txt", "b.txt"].map (pyJoin "d")).Nodup) ∧
    (runScan "d" ["x"] (fun _ => some (.str "hello")) ["a.txt", "b.txt"]).processed.card
      = 2 :=
  ⟨by decide,
   (report_sets_invariants "d" ["x"] (fun _ => some (.str "hello"))
     ["a.txt", "b.txt"]).2.2 (by decide)⟩

/-- C8, counterexample.  The claim asserts zero true matches against the
sentinel for every keyword set; but the sentinel `"No text extracted."`
is itself searchable text, and the keyword `"text"` is a substring of it,
so a PDF that degraded to the sentinel records a true match. -/
theorem sentinel_match_counterexample :
    extract_text_from_pdf "" false "" false = "No text extracted." ∧
    (fileCounts ["text"] (.str "No text extracted.")).1 = 1 := by
  refine ⟨by decide, by decide⟩

/-- C8, amended.  Matching against the sentinel is total (the matcher is
a function; it cannot crash), and for every keyword set none of whose
keywords occurs as a substring of `"No text extracted."`, the recorded
matched count is `0`. -/
theorem sentinel_no_matches (kws : List String)
    (h : ∀ w ∈ kws, pyIn w (.str "No text extracted.") = false) :
    extract_text_from_pdf "" false "" false = "No text extracted." ∧
    (fileCounts kws (.str "No text extracted.")).1 = 0 := by
  refine ⟨by decide, ?_⟩
  have hnil :
      (search_words_in_text (.str "No text extracted.") kws).filter (fun wr => wr.2)
        = [] := by
    refine List.filter_eq_nil_iff.mpr ?_
    intro e he
    have hv := search_words_mem_val (.str "No text extracted.") kws e he
    have hk := search_words_mem_key (.str "No text extracted.") kws e he
    have hw := h e.1 hk
    rw [hv, hw]
    decide
  unfold fileCounts
  rw [hnil]
  rfl

/-- Witness for `sentinel_no_matches` with the keyword `"invoice"`,
absent from the sentinel. -/
theorem sentinel_no_matches_witness :
    extract_text_from_pdf "" false "" false = "No text extracted." ∧
    (fileCounts ["invoice"] (.str "No text extracted.")).1 = 0 :=
  sentinel_no_matches ["invoice"] (by decide)

/-- C10.  `file_word_counts` is keyed by `os.path.basename(file_path)`
(src/main.py line 189): when two successfully extracted files with
distinct full paths share a base name, the dict ends up with a single
entry under that base name holding only the later file's counts, while
both full paths are in `processed_files`. -/
theorem basename_keyed_counts_overwrite (d : String) (kws : List String)
    (extract : String → Option Payload) (f1 f2 : String) (t1 t2 : Payload)
    (h1 : extract (pyJoin d f1) = some t1) (h2 : extract (pyJoin d f2) = some t2)
    (ht1 : pyTruthy t1 = true) (ht2 : pyTruthy t2 = true)
    (hb : pyBasename (pyJoin d f1) = pyBasename (pyJoin d f2)) :
    (runScan d kws extract [f1, f2]).file_word_counts
        = [(pyBasename (pyJoin d f2), fileCounts kws t2)] ∧
    pyJoin d f1 ∈ (runScan d kws extract [f1, f2]).processed ∧
    pyJoin d f2 ∈ (runScan d kws extract [f1, f2]).processed := by
  have hrun : runScan d kws extract [f1, f2]
      = processOneFile d kws extract (processOneFile d kws extract initState f1) f2 := rfl
  refine ⟨?_, ?_, ?_⟩
  · rw [hrun, counts_processOneFile_hit d kws extract _ f2 t2 h2 ht2,
      counts_processOneFile_hit d kws extract initState f1 t1 h1 ht1]
    show dictAssign (dictAssign [] (pyBasename (pyJoin d f1)) (fileCounts kws t1))
        (pyBasename (pyJoin d f2)) (fileCounts kws t2) = _
    rw [hb]
    simp [dictAssign]
  · rw [hrun, processed_processOneFile, processed_processOneFile]
    exact Finset.mem_insert_of_mem (Finset.mem_insert_self _ _)
  · rw [hrun, processed_processOneFile]
    exact Finset.mem_insert_self _ _

/-- Witness for `basename_keyed_counts_overwrite`: `a/x.txt` and
`b/x.txt` in different directories share the base name `x.txt`. -/
theorem basename_keyed_counts_overwrite_witness :
    (runScan "" ["beta"]
        (fun p => if p = "a/x.txt" then some (.str "alpha") else some (.str "beta"))
        ["a/x.txt", "b/x.txt"]).file_word_counts
      = [(pyBasename (pyJoin "" "b/x.txt"), fileCounts ["beta"] (.str "beta"))] ∧
    pyJoin "" "a/x.txt" ∈
      (runScan "" ["beta"]
        (fun p => if p = "a/x.txt" then some (.str "alpha") else some (.str "beta"))
        ["a/x.txt", "b/x.txt"]).processed ∧
    pyJoin "" "b/x.txt" ∈
      (runScan "" ["beta"]
        (fun p => if p = "a/x.txt" then some (.str "alpha") else some (.str "beta"))
        ["a/x.txt", "b/x.txt"]).processed :=
  basename_keyed_counts_overwrite "" ["beta"]
    (fun p => if p = "a/x.txt" then some (.str "alpha") else some (.str "beta"))
    "a/x.txt" "b/x.txt" (.str "alpha") (.str "beta")
    (by decide) (by decide) (by decide) (by decide) (by decide)
